import Mathlib

/-!
Shallow embedding of the cellwars Rust bot SDK (src/lib.rs) and proofs about
its protocol/state engine.

Machine integers are modelled as `Nat` / `Int` with explicit wrapping where
the source performs casts or release-mode wrapping arithmetic:
  - `u32` fields are `Nat` (values below 2^32 in all reachable states);
  - `i32` values are `Int` in the range [-2^31, 2^31), with `wrap32` applied
    wherever Rust `i32` arithmetic can overflow (release semantics) and at
    every `as i32` / `as u32` / `as u64` cast site.
-/

namespace Cellwars

/-- Reduce an integer into the `i32` range [-2^31, 2^31), as two's-complement
wrapping does. -/
def wrap32 (n : Int) : Int := (n + 2 ^ 31) % 2 ^ 32 - 2 ^ 31

/-- The Rust cast `u32 as i32` (bit reinterpretation). -/
def u32ToI32 (n : Nat) : Int := wrap32 n

/-- The Rust cast `i32 as u32` (bit reinterpretation). -/
def i32ToU32 (n : Int) : Nat := (n % 2 ^ 32).toNat

/-- The Rust cast `i32 as u64` (sign extension then reinterpretation). -/
def i32ToU64 (n : Int) : Nat := (n % 2 ^ 64).toNat

/-- Rust `i32::abs` in release mode: exact absolute value except that
`i32::MIN.abs()` wraps back to `i32::MIN`. -/
def i32abs (n : Int) : Int := wrap32 n.natAbs

/-- The values an `i32` field can actually hold. -/
def i32Valid (n : Int) : Prop := -(2 ^ 31) ≤ n ∧ n < 2 ^ 31

instance (n : Int) : Decidable (i32Valid n) := by
  unfold i32Valid; infer_instance

/-! ## Wire codec (src/lib.rs lines 43-129): `Command`, `Action`, parsing -/

/-- The `Command` enum (lib.rs lines 44-52). -/
inductive Command where
  | Initialize (width height team_id my_column enemy_column : Nat)
  | Spawn (cell_id x y health team_id age : Nat)
  | Die (cell_id : Nat)
  | SetCellProperties (cell_id x y health age : Nat)
  | ConflictingActions (x y : Nat)
  | RunRound
  | EndGame
deriving DecidableEq

/-- The `Action` enum (lib.rs lines 55-61). -/
inductive Action where
  | Move (cell_id x y : Nat)
  | Attack (cell_id x y : Nat)
  | Explode (cell_id : Nat)
  | Initialized
  | RoundEnd
deriving DecidableEq

/-- The `Display` impl for `Action` (lib.rs lines 63-76): one output line,
without the trailing newline added by `send_action`. -/
def Action.render : Action → List Char
  | .Move cell_id x y =>
      ("MOVE " ++ toString cell_id ++ " " ++ toString x ++ " " ++ toString y).data
  | .Attack cell_id x y =>
      ("ATTACK " ++ toString cell_id ++ " " ++ toString x ++ " " ++ toString y).data
  | .Explode cell_id => ("EXPLODE " ++ toString cell_id).data
  | .Initialized => "INITIALIZED".data
  | .RoundEnd => "ROUND_END".data

/-- Rust `char::is_whitespace` restricted to the ASCII range (the protocol is
ASCII); 11 and 12 are vertical tab and form feed. -/
def isWs (c : Char) : Bool :=
  c == ' ' || c == '\t' || c == '\n' || c == '\r' || c.toNat == 11 || c.toNat == 12

/-- Strip trailing whitespace (half of Rust `str::trim`). -/
def rtrim (l : List Char) : List Char := (l.reverse.dropWhile isWs).reverse

/-- Rust `str::trim`: strip leading and trailing whitespace. -/
def trim (l : List Char) : List Char := (rtrim l).dropWhile isWs

/-- Rust `str::split(' ')`: split on every single space; always yields at
least one piece, and empty pieces between consecutive separators. -/
def splitSp : List Char → List (List Char)
  | [] => [[]]
  | c :: rest =>
    match splitSp rest with
    | [] => [[]]
    | t :: ts => if c = ' ' then [] :: t :: ts else (c :: t) :: ts

/-- Decimal digit accumulation for `parseU32`. -/
def digitsToNatAux : List Char → Nat → Option Nat
  | [], acc => some acc
  | c :: cs, acc =>
    if '0' ≤ c ∧ c ≤ '9' then digitsToNatAux cs (acc * 10 + (c.toNat - '0'.toNat))
    else none

/-- Rust `str::parse::<u32>()`: an optional leading plus sign, then a
non-empty run of ASCII digits, value below 2^32. -/
def parseU32 (t : List Char) : Option Nat :=
  let t2 := match t with
    | '+' :: rest => rest
    | _ => t
  match t2 with
  | [] => none
  | _ =>
    match digitsToNatAux t2 0 with
    | none => none
    | some n => if n < 2 ^ 32 then some n else none

/-- The parameter-collecting loop of `Command::from_str` (lib.rs lines
86-93): every token after the first must parse as a `u32`. -/
def parseParams : List (List Char) → Option (List Nat)
  | [] => some []
  | t :: ts =>
    match parseU32 t with
    | none => none
    | some v =>
      match parseParams ts with
      | none => none
      | some vs => some (v :: vs)

/-- The dispatch `match (tokens[0], parameters.len())` of `Command::from_str`
(lib.rs lines 94-127): keyword and argument count together select the
variant; any other pair is an unknown command. -/
def dispatch (kw : List Char) (ps : List Nat) : Except String Command :=
  if kw = "INITIALIZE".data then
    if ps.length = 5 then
      .ok (.Initialize ps[0]! ps[1]! ps[2]! ps[3]! ps[4]!)
    else .error "Unknown command"
  else if kw = "SPAWN".data then
    if ps.length = 6 then
      .ok (.Spawn ps[0]! ps[1]! ps[2]! ps[3]! ps[4]! ps[5]!)
    else .error "Unknown command"
  else if kw = "DIE".data then
    if ps.length = 1 then .ok (.Die ps[0]!) else .error "Unknown command"
  else if kw = "SET_CELL_PROPERTIES".data then
    if ps.length = 5 then
      .ok (.SetCellProperties ps[0]! ps[1]! ps[2]! ps[3]! ps[4]!)
    else .error "Unknown command"
  else if kw = "CONFLICTING_ACTIONS".data then
    if ps.length = 2 then .ok (.ConflictingActions ps[0]! ps[1]!)
    else .error "Unknown command"
  else if kw = "RUN_ROUND".data then
    if ps.length = 0 then .ok .RunRound else .error "Unknown command"
  else if kw = "END_GAME".data then
    if ps.length = 0 then .ok .EndGame else .error "Unknown command"
  else .error "Unknown command"

/-- `Command::from_str` (lib.rs lines 81-128): trim the line, split on single
spaces, parse every token after the first as `u32`, then dispatch on the
keyword together with the argument count. -/
def Command.fromStr (s : List Char) : Except String Command :=
  if (splitSp (trim s)).length = 0 then .error "no tokens in command"
  else
    match parseParams ((splitSp (trim s)).drop 1) with
    | none => .error "non int parameter found"
    | some ps => dispatch ((splitSp (trim s)).headD []) ps

/-- The keywords `Command::from_str` recognises. -/
def keywords : List (List Char) :=
  ["INITIALIZE".data, "SPAWN".data, "DIE".data, "SET_CELL_PROPERTIES".data,
   "CONFLICTING_ACTIONS".data, "RUN_ROUND".data, "END_GAME".data]

/-- Number of integer arguments each keyword's variant requires. -/
def arity (kw : List Char) : Nat :=
  if kw = "INITIALIZE".data then 5
  else if kw = "SPAWN".data then 6
  else if kw = "DIE".data then 1
  else if kw = "SET_CELL_PROPERTIES".data then 5
  else if kw = "CONFLICTING_ACTIONS".data then 2
  else 0

/-! ## Geometry (lib.rs lines 197-280): `Position`, `Direction` -/

/-- The `Position` struct (lib.rs lines 199-202): a pair of `i32`. -/
structure Position where
  x : Int
  y : Int
deriving DecidableEq

/-- A `Position` whose fields are within the `i32` range (the Rust type
enforces this by construction). -/
def Position.valid (p : Position) : Prop := i32Valid p.x ∧ i32Valid p.y

instance (p : Position) : Decidable p.valid := by
  unfold Position.valid; infer_instance

/-- `Position::translated_by_offset` (lib.rs lines 230-235), with `i32`
addition wrapping. -/
def Position.translated_by_offset (p : Position) (dx dy : Int) : Position :=
  { x := wrap32 (p.x + dx), y := wrap32 (p.y + dy) }

/-- `Position::distance` (lib.rs lines 254-256): Manhattan distance computed
in wrapping `i32` arithmetic, then cast `as u64`. -/
def Position.distance (p q : Position) : Nat :=
  i32ToU64 (wrap32 (i32abs (wrap32 (p.x - q.x)) + i32abs (wrap32 (p.y - q.y))))

/-- The `Direction` enum (lib.rs lines 260-269). -/
inductive Direction where
  | North
  | South
  | East
  | West
deriving DecidableEq

/-- `Direction::as_position_offset` (lib.rs lines 272-279). -/
def Direction.as_position_offset : Direction → Int × Int
  | .North => (0, -1)
  | .South => (0, 1)
  | .East => (1, 0)
  | .West => (-1, 0)

/-- `Position::translated_by_direction` (lib.rs lines 242-245). -/
def Position.translated_by_direction (p : Position) (d : Direction) : Position :=
  p.translated_by_offset d.as_position_offset.1 d.as_position_offset.2

/-! ## World state (lib.rs lines 282-505): `Cell`, `WorldProperties`,
`WorldState` -/

/-- The `WorldProperties` struct (lib.rs lines 455-461); all fields `u32`. -/
structure WorldProperties where
  width : Nat
  height : Nat
  my_team_id : Nat
  my_column : Nat
  enemy_column : Nat
deriving DecidableEq

instance : Inhabited WorldProperties := ⟨⟨0, 0, 0, 0, 0⟩⟩

/-- The `Cell` struct (lib.rs lines 283-292). The `communicator` back
reference is not part of the value model: intent-emitting methods instead
return the actions they stage (see `Cell.move_to_position` etc.). -/
structure Cell where
  cell_id : Nat
  position : Position
  health : Nat
  team_id : Nat
  age : Nat
  is_enemy : Bool
  world_properties : WorldProperties
deriving DecidableEq

/-- `Cell::is_in_bounds` (lib.rs lines 328-333): the width and height are
`u32` values cast `as i32` before comparison. -/
def Cell.is_in_bounds (c : Cell) (p : Position) : Bool :=
  decide (0 ≤ p.x) && decide (0 ≤ p.y) &&
    decide (p.x < u32ToI32 c.world_properties.width) &&
    decide (p.y < u32ToI32 c.world_properties.height)

/-- `Cell::can_move_to_position` (lib.rs lines 340-342). -/
def Cell.can_move_to_position (c : Cell) (p : Position) : Bool :=
  c.is_in_bounds p && decide (c.position.distance p = 1)

/-- `Cell::can_move_in_direction` (lib.rs lines 349-351). -/
def Cell.can_move_in_direction (c : Cell) (d : Direction) : Bool :=
  c.can_move_to_position (c.position.translated_by_direction d)

/-- `Cell::can_attack_position` (lib.rs lines 358-362): each axis difference
is computed in wrapping `i32` arithmetic and passed through `i32::abs`. -/
def Cell.can_attack_position (c : Cell) (p : Position) : Bool :=
  c.is_in_bounds p &&
    decide (i32abs (wrap32 (p.x - c.position.x)) ≤ 1) &&
    decide (i32abs (wrap32 (p.y - c.position.y)) ≤ 1)

/-- `Cell::move_to_position` (lib.rs lines 410-418): if the legality check
passes, push one `Move` action (coordinates cast `as u32`) onto the shared
pending buffer; otherwise leave the buffer untouched. -/
def Cell.move_to_position (c : Cell) (p : Position) (pending : List Action) :
    List Action :=
  if c.can_move_to_position p then
    pending ++ [Action.Move c.cell_id (i32ToU32 p.x) (i32ToU32 p.y)]
  else pending

/-- `Cell::move_in_direction` (lib.rs lines 427-431). -/
def Cell.move_in_direction (c : Cell) (d : Direction) (pending : List Action) :
    List Action :=
  if c.can_move_in_direction d then
    c.move_to_position (c.position.translated_by_direction d) pending
  else pending

/-- The `WorldState` struct (lib.rs lines 465-468). The `HashMap<u32, Cell>`
is modelled as an association list with key-replacing insertion; iteration
order of a `HashMap` is unspecified, and no claim depends on it. -/
structure WorldState where
  cells : List (Nat × Cell)
  properties : WorldProperties
deriving DecidableEq

instance : Inhabited WorldState := ⟨⟨[], default⟩⟩

/-- `HashMap::get` on the cells map. -/
def lookupCell (ws : WorldState) (k : Nat) : Option Cell :=
  match ws.cells.find? (fun kv => kv.1 == k) with
  | some kv => some kv.2
  | none => none

/-- `HashMap::remove` on the cells map: drops every binding of the key. -/
def removeCell (m : List (Nat × Cell)) (k : Nat) : List (Nat × Cell) :=
  m.filter (fun kv => kv.1 != k)

/-- `HashMap::insert` on the cells map: replaces any existing binding. -/
def insertCell (m : List (Nat × Cell)) (k : Nat) (v : Cell) :
    List (Nat × Cell) :=
  (k, v) :: removeCell m k

/-- `WorldState::my_team_id` (lib.rs lines 482-484). -/
def WorldState.my_team_id (ws : WorldState) : Nat := ws.properties.my_team_id

/-- `WorldState::my_cells` (lib.rs lines 497-499). -/
def WorldState.my_cells (ws : WorldState) : List Cell :=
  (ws.cells.map (fun kv => kv.2)).filter (fun c => c.team_id == ws.my_team_id)

/-- `WorldState::enemy_cells` (lib.rs lines 502-504). -/
def WorldState.enemy_cells (ws : WorldState) : List Cell :=
  (ws.cells.map (fun kv => kv.2)).filter (fun c => c.team_id != ws.my_team_id)

/-- Whether any cell in the list carries the given identifier. -/
def idMem (cs : List Cell) (i : Nat) : Bool := cs.any (fun c => c.cell_id == i)

/-! ## State builder (lib.rs lines 512-608): `GameCoordinator::apply_*` -/

/-- `GameCoordinator::apply_initialize` (lib.rs lines 519-537). -/
def apply_init (width height my_team_id my_column enemy_column : Nat) :
    WorldState :=
  { cells := [],
    properties :=
      { width := width, height := height, my_team_id := my_team_id,
        my_column := my_column, enemy_column := enemy_column } }

/-- `GameCoordinator::apply_spawn` (lib.rs lines 539-562): inserts a cell,
computing `is_enemy` once from the snapshot's team id; the spawn
coordinates are `u32` cast `as i32`. -/
def apply_spawn (ws : WorldState)
    (cell_id x y health team_id age : Nat) : WorldState :=
  let is_enemy := team_id != ws.my_team_id
  { ws with
    cells := insertCell ws.cells cell_id
      { cell_id := cell_id,
        position := { x := u32ToI32 x, y := u32ToI32 y },
        health := health, team_id := team_id, age := age,
        is_enemy := is_enemy, world_properties := ws.properties } }

/-- `GameCoordinator::apply_set_cell_properties` (lib.rs lines 564-578):
`expect("Invalid cell id")` on a missing id is a panic, modelled as
`none`. -/
def apply_set_cell_properties (ws : WorldState)
    (cell_id x y health age : Nat) : Option WorldState :=
  match lookupCell ws cell_id with
  | none => none
  | some c =>
    some { ws with
      cells := insertCell ws.cells cell_id
        { c with
          position := { x := u32ToI32 x, y := u32ToI32 y },
          health := health, age := age } }

/-- `GameCoordinator::apply_die` (lib.rs lines 580-583): `HashMap::remove`,
total — removing an absent key is a no-op. -/
def apply_die (ws : WorldState) (cell_id : Nat) : WorldState :=
  { ws with cells := removeCell ws.cells cell_id }

/-- `GameCoordinator::apply_command` (lib.rs lines 590-608); `none` models a
panic inside `apply_set_cell_properties`. -/
def applyCommand : Command → WorldState → Option WorldState
  | .Initialize w h t mc ec, _ => some (apply_init w h t mc ec)
  | .Spawn cid x y hp t age, ws => some (apply_spawn ws cid x y hp t age)
  | .Die cid, ws => some (apply_die ws cid)
  | .SetCellProperties cid x y hp age, ws =>
      apply_set_cell_properties ws cid x y hp age
  | _, ws => some ws

/-! ## Communicator (lib.rs lines 131-195): action buffer + transport

The mutex-guarded `CommunicatorDetails` is modelled as an explicit state
record threaded through the operations: `input` is the remaining input
lines (without their newline; `Command.fromStr` trims, so parsing a line
with its newline attached is the same — see the trim theorems), `buffer`
is what has been written to the `BufWriter` but not yet flushed, and
`sent` is what the engine has received. -/

structure CommState where
  input : List (List Char)
  pending : List Action
  buffer : List (List Char)
  sent : List (List Char)
deriving DecidableEq

/-- `Communicator::add_action` (lib.rs lines 153-155). -/
def CommState.add_action (st : CommState) (a : Action) : CommState :=
  { st with pending := st.pending ++ [a] }

/-- `Communicator::send_action` (lib.rs lines 157-164): write one rendered
line into the output buffer. -/
def CommState.send_action (st : CommState) (a : Action) : CommState :=
  { st with buffer := st.buffer ++ [a.render] }

/-- `Communicator::flush` (lib.rs lines 166-169). -/
def CommState.flushOut (st : CommState) : CommState :=
  { st with buffer := [], sent := st.sent ++ st.buffer }

/-- `Communicator::flush_action` (lib.rs lines 171-176): send one line and
flush immediately, bypassing the pending queue. -/
def CommState.flush_action (st : CommState) (a : Action) : CommState :=
  (st.send_action a).flushOut

/-- `Communicator::end_round` (lib.rs lines 178-187): take the whole pending
queue (leaving it empty), append the `RoundEnd` sentinel, send every taken
action in order, then flush. -/
def CommState.end_round (st : CommState) : CommState :=
  ((st.pending ++ [Action.RoundEnd]).foldl CommState.send_action
    { st with pending := [] }).flushOut

/-- `Communicator::read_command` (lib.rs lines 189-194): read one line (at
end of stream `read_line` yields the empty line) and parse it. -/
def CommState.read_command (st : CommState) :
    Except String (Command × CommState) :=
  let line := st.input.headD []
  let st2 := { st with input := st.input.tail }
  match Command.fromStr line with
  | .ok c => .ok (c, st2)
  | .error e => .error e

/-! ## Round loop (lib.rs lines 610-629): `GameCoordinator::run_loop`

A user bot is modelled as a function from the snapshot to the list of
actions its `run_round` call stages (in staging order). The loop is given
fuel; each Rust iteration consumes at least one input line, so any fuel
not below the input length plus one reproduces the Rust behaviour. -/

def run_loop_aux (bot : WorldState → List Action) :
    Nat → Command → WorldState → CommState → Except String CommState
  | 0, _, _, _ => .error "out of fuel"
  | fuel + 1, cmd, ws, st =>
    if cmd = Command.EndGame then .ok st
    else if cmd = Command.RunRound then
      let st2 := ({ st with pending := st.pending ++ bot ws } : CommState).end_round
      match st2.read_command with
      | .error e => .error e
      | .ok (c2, st3) => run_loop_aux bot fuel c2 ws st3
    else
      match applyCommand cmd ws with
      | none => .error "Invalid cell id"
      | some ws2 =>
        match st.read_command with
        | .error e => .error e
        | .ok (c2, st2) => run_loop_aux bot fuel c2 ws2 st2

/-- `GameCoordinator::run_loop` (lib.rs lines 610-629): advertise
`INITIALIZED` (immediate flush), then read commands, folding non-marker
commands into the snapshot; on `RUN_ROUND` invoke the bot and flush the
round's actions plus the sentinel; stop cleanly on `END_GAME`. -/
def run_loop (bot : WorldState → List Action) (fuel : Nat)
    (st : CommState) : Except String CommState :=
  let st2 := st.flush_action Action.Initialized
  match st2.read_command with
  | .error e => .error e
  | .ok (c, st3) => run_loop_aux bot fuel c default st3

/-- A fresh communicator state holding the given input lines. -/
def initialComm (lines : List (List Char)) : CommState :=
  { input := lines, pending := [], buffer := [], sent := [] }

/-- The sent lines of a successful run, `none` on an aborted run. -/
def sentOf : Except String CommState → Option (List (List Char))
  | .ok st => some st.sent
  | .error _ => none

/-- The callback of the C2 scenario: look up cell 1 in the snapshot and call
`move_in_direction(East)` on it; the returned list is what the call stages
into the buffer. -/
def eastBot (ws : WorldState) : List Action :=
  match lookupCell ws 1 with
  | some c => c.move_in_direction Direction.East []
  | none => []

/-! ## Spec-side predicates

These two definitions follow the specification's wording (not the code) for
the two legality checks, to be compared with the code's versions. -/

/-- The spec's wording for `can_move_to_position`: the target is in bounds
(0 ≤ x < width and 0 ≤ y < height, as mathematical integers) and at
Manhattan distance exactly 1 from the cell's current position. -/
def specCanMove (c : Cell) (p : Position) : Prop :=
  0 ≤ p.x ∧ p.x < (c.world_properties.width : Int) ∧
    0 ≤ p.y ∧ p.y < (c.world_properties.height : Int) ∧
    (c.position.x - p.x).natAbs + (c.position.y - p.y).natAbs = 1

instance (c : Cell) (p : Position) : Decidable (specCanMove c p) := by
  unfold specCanMove; infer_instance

/-- The spec's wording for `can_attack_position`: the target is in bounds and
within Chebyshev distance 1 of the cell's position in each axis
independently. -/
def specCanAttack (c : Cell) (p : Position) : Prop :=
  0 ≤ p.x ∧ p.x < (c.world_properties.width : Int) ∧
    0 ≤ p.y ∧ p.y < (c.world_properties.height : Int) ∧
    (p.x - c.position.x).natAbs ≤ 1 ∧ (p.y - c.position.y).natAbs ≤ 1

instance (c : Cell) (p : Position) : Decidable (specCanAttack c p) := by
  unfold specCanAttack; infer_instance

/-- Every entry of the cells map is keyed by its cell's id; true in every
state the coordinator can reach, since `apply_spawn` inserts with
`key = cell_id`. -/
def wsWF (ws : WorldState) : Bool :=
  ws.cells.all (fun kv => kv.2.cell_id == kv.1)

/-! ## Helper lemmas -/

theorem wrap32_lb (n : Int) : -(2 ^ 31) ≤ wrap32 n := by
  unfold wrap32; omega

theorem wrap32_ub (n : Int) : wrap32 n < 2 ^ 31 := by
  unfold wrap32; omega

theorem foldl_send_action (acts : List Action) (st : CommState) :
    acts.foldl CommState.send_action st =
      { st with buffer := st.buffer ++ acts.map Action.render } := by
  induction acts generalizing st with
  | nil => simp
  | cons a as ih =>
    rw [List.foldl_cons, ih]
    simp [CommState.send_action]

theorem removeCell_of_absent (m : List (Nat × Cell)) (k : Nat)
    (h : m.find? (fun kv => kv.1 == k) = none) : removeCell m k = m := by
  unfold removeCell
  rw [List.filter_eq_self]
  intro kv hkv
  have := List.find?_eq_none.mp h kv hkv
  simpa using this

/-! ## C1 -/

/-- C1 counterexample: applying `Die` for a cell id absent from the snapshot
is not a failure — on the freshly initialized (empty) snapshot,
`applyCommand (Die 1)` succeeds and leaves the snapshot unchanged, where
the claim demands a fatal failure (`none`). -/
theorem die_absent_id_not_fatal_cex :
    applyCommand (Command.Die 1) (apply_init 5 5 1 0 4) =
        some (apply_init 5 5 1 0 4) ∧
      applyCommand (Command.Die 1) (apply_init 5 5 1 0 4) ≠ none := by
  refine ⟨rfl, ?_⟩
  decide

/-- C1 (amended): applying `Die` for a cell id absent from the snapshot is a
silent no-op (`HashMap::remove` of a missing key), leaving the snapshot
unchanged; only `SetCellProperties` on an absent id is a fatal failure. -/
theorem die_absent_id_noop (ws : WorldState) (cid x y hp age : Nat)
    (h : lookupCell ws cid = none) :
    applyCommand (Command.Die cid) ws = some ws ∧
      applyCommand (Command.SetCellProperties cid x y hp age) ws = none := by
  constructor
  · show some (apply_die ws cid) = some ws
    unfold lookupCell at h
    have hf : ws.cells.find? (fun kv => kv.1 == cid) = none := by
      cases hf2 : ws.cells.find? (fun kv => kv.1 == cid) with
      | none => rfl
      | some kv => rw [hf2] at h; exact Option.noConfusion h
    unfold apply_die
    rw [removeCell_of_absent ws.cells cid hf]
  · show apply_set_cell_properties ws cid x y hp age = none
    unfold apply_set_cell_properties
    rw [h]

/-- C1 witness: the amended no-op behaviour at a concrete absent id. -/
theorem die_absent_id_noop_witness :
    applyCommand (Command.Die 2) (apply_init 5 5 1 0 4) =
        some (apply_init 5 5 1 0 4) ∧
      applyCommand (Command.SetCellProperties 2 0 0 0 0)
        (apply_init 5 5 1 0 4) = none :=
  die_absent_id_noop (apply_init 5 5 1 0 4) 2 0 0 0 0 rfl

/-! ## C3 -/

/-- C3: for every communicator state — in particular for every sequence of
staged actions, including the empty one — `end_round` empties the pending
queue, leaves nothing buffered (it flushes), and the engine receives the
staged actions in FIFO staging order followed by exactly one `ROUND_END`
line as the last line of the round's output. -/
theorem end_round_spec (st : CommState) :
    st.end_round.pending = [] ∧
      st.end_round.buffer = [] ∧
      st.end_round.sent =
        st.sent ++ st.buffer ++ st.pending.map Action.render ++
          [Action.render Action.RoundEnd] := by
  unfold CommState.end_round
  rw [foldl_send_action]
  simp [CommState.flushOut]

/-! ## C4 -/

/-- C4: `move_to_position` on a target failing `can_move_to_position` leaves
the pending buffer exactly as it was (silent no-op, no error); on a target
passing the check it appends exactly one `Move` action carrying the cell's
id and the target's coordinates. -/
theorem move_to_position_staging (c : Cell) (p : Position)
    (pending : List Action) :
    (c.can_move_to_position p = false →
        c.move_to_position p pending = pending) ∧
      (c.can_move_to_position p = true →
        c.move_to_position p pending =
          pending ++ [Action.Move c.cell_id p.x.toNat p.y.toNat]) := by
  constructor
  · intro h
    simp [Cell.move_to_position, h]
  · intro h
    have hb := h
    simp only [Cell.can_move_to_position, Cell.is_in_bounds, Bool.and_eq_true,
      decide_eq_true_eq] at hb
    obtain ⟨⟨⟨⟨hx0, hy0⟩, hxw⟩, hyh⟩, _⟩ := hb
    have hxu : p.x < 2 ^ 31 := lt_of_lt_of_le hxw (le_of_lt (wrap32_ub _))
    have hyu : p.y < 2 ^ 31 := lt_of_lt_of_le hyh (le_of_lt (wrap32_ub _))
    simp only [Cell.move_to_position, h, if_true, i32ToU32]
    have hx : (p.x % 2 ^ 32).toNat = p.x.toNat := by omega
    have hy : (p.y % 2 ^ 32).toNat = p.y.toNat := by omega
    rw [hx, hy]

/-- A concrete cell at (0,2) on a 5×5 board, as spawned by the C2 scenario. -/
def cellW : Cell :=
  { cell_id := 1, position := { x := 0, y := 2 }, health := 100, team_id := 1,
    age := 0, is_enemy := false,
    world_properties :=
      { width := 5, height := 5, my_team_id := 1, my_column := 0,
        enemy_column := 4 } }

/-- C4 witness: a concrete cell at (0,2) on a 5×5 board — the illegal
diagonal-distance target (3,3) stages nothing, the orthogonal neighbour
(1,2) stages exactly one `Move`. -/
theorem move_to_position_staging_witness :
    cellW.move_to_position { x := 3, y := 3 } [] = [] ∧
      cellW.move_to_position { x := 1, y := 2 } [] =
        [Action.Move 1 1 2] := by
  constructor
  · exact (move_to_position_staging cellW { x := 3, y := 3 } []).1 (by decide)
  · exact (move_to_position_staging cellW { x := 1, y := 2 } []).2 (by decide)

/-! ## C8 -/

/-- C8: after `Initialize` establishes `my_team_id = tid` and `Spawn` adds a
cell with team `T`, the cell is in `my_cells()` (and only there) exactly
when `T = tid`, in `enemy_cells()` (and only there) exactly when `T ≠ tid`,
and its `is_enemy` flag is set exactly when `T ≠ tid`. -/
theorem spawn_team_partition (w h tid mc ec cid x y hp T age : Nat) :
    ((apply_spawn (apply_init w h tid mc ec) cid x y hp T age).my_cells.map
        Cell.cell_id = if T = tid then [cid] else []) ∧
      ((apply_spawn (apply_init w h tid mc ec) cid x y hp T
          age).enemy_cells.map Cell.cell_id =
        if T = tid then [] else [cid]) ∧
      ((lookupCell
          (apply_spawn (apply_init w h tid mc ec) cid x y hp T age)
          cid).map Cell.is_enemy = some (T != tid)) := by
  by_cases hT : T = tid <;>
    simp [apply_spawn, apply_init, WorldState.my_cells,
      WorldState.enemy_cells, WorldState.my_team_id, insertCell, removeCell,
      lookupCell, hT]

/-! ## C9 -/

theorem lookupCell_apply_die (ws : WorldState) (cid : Nat) :
    lookupCell (apply_die ws cid) cid = none := by
  unfold lookupCell apply_die removeCell
  have hf : (ws.cells.filter (fun kv => kv.1 != cid)).find?
      (fun kv => kv.1 == cid) = none := by
    rw [List.find?_eq_none]
    intro kv hkv
    have := (List.mem_filter.mp hkv).2
    simpa using this
  rw [hf]

/-- C9: on any well-keyed snapshot containing a cell with identifier `cid`,
applying `Die cid` yields a snapshot in which `cid` appears in neither
`my_cells()` nor `enemy_cells()`, and a subsequent `SetCellProperties cid`
on the result fails fatally. -/
theorem die_removes_and_scp_fails (ws : WorldState) (cid x y hp age : Nat)
    (hwf : wsWF ws = true) (_hmem : lookupCell ws cid ≠ none) :
    idMem (apply_die ws cid).my_cells cid = false ∧
      idMem (apply_die ws cid).enemy_cells cid = false ∧
      apply_set_cell_properties (apply_die ws cid) cid x y hp age = none := by
  have hkey : ∀ kv ∈ ws.cells, kv.2.cell_id = kv.1 := by
    intro kv hkv
    have := List.all_eq_true.mp hwf kv hkv
    simpa using this
  refine ⟨?_, ?_, ?_⟩
  · rw [idMem, List.any_eq_false]
    intro c hc
    have hc2 := (List.mem_filter.mp hc).1
    obtain ⟨kv, hkv, hkv2⟩ := List.mem_map.mp hc2
    have hkv3 := List.mem_filter.mp hkv
    have h1 := hkey kv hkv3.1
    have h2 : kv.1 ≠ cid := by simpa using hkv3.2
    simp [← hkv2, h1, h2]
  · rw [idMem, List.any_eq_false]
    intro c hc
    have hc2 := (List.mem_filter.mp hc).1
    obtain ⟨kv, hkv, hkv2⟩ := List.mem_map.mp hc2
    have hkv3 := List.mem_filter.mp hkv
    have h1 := hkey kv hkv3.1
    have h2 : kv.1 ≠ cid := by simpa using hkv3.2
    simp [← hkv2, h1, h2]
  · unfold apply_set_cell_properties
    rw [lookupCell_apply_die]

/-- C9 witness: a concrete snapshot with one spawned cell (id 3); after
`Die 3` the id is in neither partition and `SetCellProperties 3` fails. -/
theorem die_removes_and_scp_fails_witness :
    idMem (apply_die (apply_spawn (apply_init 5 5 1 0 4) 3 2 2 100 1 0)
        3).my_cells 3 = false ∧
      idMem (apply_die (apply_spawn (apply_init 5 5 1 0 4) 3 2 2 100 1 0)
        3).enemy_cells 3 = false ∧
      apply_set_cell_properties
        (apply_die (apply_spawn (apply_init 5 5 1 0 4) 3 2 2 100 1 0) 3)
        3 1 1 50 1 = none :=
  die_removes_and_scp_fails
    (apply_spawn (apply_init 5 5 1 0 4) 3 2 2 100 1 0) 3 1 1 50 1
    (by decide) (by decide)

/-! ## C2 -/

/-- C2: running the round loop on the input `INITIALIZE 5 5 1 0 4`,
`SPAWN 1 0 2 100 1 0`, `RUN_ROUND`, `END_GAME`, with a callback that calls
`move_in_direction(East)` on cell 1, terminates cleanly and the engine
receives exactly `INITIALIZED` (emitted before any command is read), then
`MOVE 1 1 2`, then `ROUND_END`, in that order. -/
theorem scenario_round_loop_output :
    sentOf (run_loop eastBot 10 (initialComm
        ["INITIALIZE 5 5 1 0 4".data, "SPAWN 1 0 2 100 1 0".data,
         "RUN_ROUND".data, "END_GAME".data])) =
      some ["INITIALIZED".data, "MOVE 1 1 2".data, "ROUND_END".data] := by
  decide


/-! ## C5 -/

/-- A cell at (0,0) on a board of width 2^31: the `width as i32` cast in
`is_in_bounds` turns the width negative. -/
def cexMoveCell : Cell :=
  { cell_id := 1, position := { x := 0, y := 0 }, health := 100, team_id := 1,
    age := 0, is_enemy := false,
    world_properties :=
      { width := 2 ^ 31, height := 5, my_team_id := 1, my_column := 0,
        enemy_column := 1 } }

/-- C5 counterexample: on a board of width 2^31 the target (1,0) is in
bounds in the claim's sense (0 ≤ 1 < width) and at Manhattan distance 1
from the cell at (0,0), yet `can_move_to_position` returns `false`,
because the `u32 as i32` cast makes the width negative in the bounds
check. -/
theorem can_move_spec_mismatch_cex :
    specCanMove cexMoveCell { x := 1, y := 0 } ∧
      cexMoveCell.can_move_to_position { x := 1, y := 0 } = false := by
  constructor
  · decide
  · decide

theorem u32ToI32_of_lt (n : Nat) (h : n < 2 ^ 31) : u32ToI32 n = n := by
  unfold u32ToI32 wrap32; omega

theorem i32abs_small (d : Int) (h1 : -(2 ^ 31) < d) (h2 : d < 2 ^ 31) :
    i32abs (wrap32 d) = (d.natAbs : Int) := by
  unfold i32abs wrap32; omega

theorem axis_abs (d : Int) (h1 : -(2 ^ 32) + 2 ≤ d) (h2 : d ≤ 2 ^ 31 - 1) :
    (i32abs (wrap32 d) = -(2 ^ 31) ∨
      (0 ≤ i32abs (wrap32 d) ∧ i32abs (wrap32 d) < 2 ^ 31)) ∧
    (i32abs (wrap32 d) = 1 ↔ d.natAbs = 1) ∧
    (i32abs (wrap32 d) = 0 ↔ d = 0) := by
  unfold i32abs wrap32; omega

theorem i32ToU64_eq_one (S : Int) (h1 : -(2 ^ 31) ≤ S) (h2 : S < 2 ^ 31) :
    (i32ToU64 S = 1) = (S = 1) := by
  unfold i32ToU64
  apply propext
  omega

theorem wrap32_eq_one_iff (x : Int) (h1 : -(2 ^ 32) ≤ x) (h2 : x ≤ 2 ^ 32 - 2) :
    (wrap32 x = 1) = (x = 1 ∨ x = 1 - 2 ^ 32) := by
  unfold wrap32
  apply propext
  omega

/-- For targets whose coordinates can appear in a positive-width bounds
check, the wrapping `i32` Manhattan distance equals 1 exactly when the
mathematical Manhattan distance is 1, whatever the cell's own (valid)
position. -/
theorem dist_one_iff (a b : Position) (ha : a.valid)
    (hbx : 0 ≤ b.x) (hbx2 : b.x ≤ 2 ^ 31 - 2)
    (hby : 0 ≤ b.y) (hby2 : b.y ≤ 2 ^ 31 - 2) :
    a.distance b = 1 ↔ (a.x - b.x).natAbs + (a.y - b.y).natAbs = 1 := by
  obtain ⟨⟨hax1, hax2⟩, hay1, hay2⟩ := ha
  have e1 := axis_abs (a.x - b.x) (by omega) (by omega)
  have e2 := axis_abs (a.y - b.y) (by omega) (by omega)
  unfold Position.distance
  generalize hA1 : i32abs (wrap32 (a.x - b.x)) = A1 at e1
  generalize hA2 : i32abs (wrap32 (a.y - b.y)) = A2 at e2
  rw [i32ToU64_eq_one _ (wrap32_lb _) (wrap32_ub _),
    wrap32_eq_one_iff (A1 + A2) (by omega) (by omega)]
  omega

/-- C5 (amended): for boards whose width and height are below 2^31 (so the
`u32 as i32` casts preserve them), `can_move_to_position` returns `true`
exactly for the in-bounds positions at Manhattan distance 1 — the
in-bounds orthogonal neighbours, and nothing else — for every
representable cell position and every representable target. -/
theorem can_move_to_position_correct (c : Cell) (p : Position)
    (hc : c.position.valid) (_hp : p.valid)
    (hw : c.world_properties.width < 2 ^ 31)
    (hh : c.world_properties.height < 2 ^ 31) :
    c.can_move_to_position p = true ↔ specCanMove c p := by
  have hw32 := u32ToI32_of_lt _ hw
  have hh32 := u32ToI32_of_lt _ hh
  simp only [Cell.can_move_to_position, Cell.is_in_bounds, Bool.and_eq_true,
    decide_eq_true_eq, hw32, hh32, specCanMove]
  constructor
  · rintro ⟨⟨⟨⟨hx0, hy0⟩, hxw⟩, hyh⟩, hdist⟩
    exact ⟨hx0, hxw, hy0, hyh,
      (dist_one_iff c.position p hc hx0 (by omega) hy0 (by omega)).mp hdist⟩
  · rintro ⟨hx0, hxw, hy0, hyh, hd⟩
    exact ⟨⟨⟨⟨hx0, hy0⟩, hxw⟩, hyh⟩,
      (dist_one_iff c.position p hc hx0 (by omega) hy0 (by omega)).mpr hd⟩

/-- C5 witness: the amended equivalence at a concrete cell at (0,2) on a
5×5 board against its legal east neighbour (1,2). -/
theorem can_move_to_position_correct_witness :
    cellW.can_move_to_position { x := 1, y := 2 } = true ↔
      specCanMove cellW { x := 1, y := 2 } :=
  can_move_to_position_correct cellW { x := 1, y := 2 } (by decide) (by decide)
    (by decide) (by decide)

/-! ## C6 -/

/-- A cell whose position (-2, 0) arose from `SPAWN` coordinates
4294967294, 0 (the `u32 as i32` cast), on a board of width and height
2^31 - 1. -/
def cexAttackCell : Cell :=
  { cell_id := 1, position := { x := -2, y := 0 }, health := 100, team_id := 1,
    age := 0, is_enemy := false,
    world_properties :=
      { width := 2 ^ 31 - 1, height := 2 ^ 31 - 1, my_team_id := 1,
        my_column := 0, enemy_column := 1 } }

/-- C6 counterexample: for the cell at (-2, 0), the in-bounds target
(2^31 - 2, 0) is at Chebyshev distance 2^31, yet `can_attack_position`
returns `true`: the x-axis difference 2^31 wraps to `i32::MIN`, whose
`abs()` wraps back to `i32::MIN`, which is ≤ 1. -/
theorem can_attack_spec_mismatch_cex :
    cexAttackCell.can_attack_position { x := 2 ^ 31 - 2, y := 0 } = true ∧
      ¬ specCanAttack cexAttackCell { x := 2 ^ 31 - 2, y := 0 } := by
  constructor
  · decide
  · decide

/-- C6 (amended): provided the board's width and height are below 2^31 and
the cell's own position is in bounds (as every engine-spawned cell's is),
`can_attack_position` returns `true` exactly for the in-bounds positions
within Chebyshev distance 1 in each axis — the 8 neighbours and the
cell's own square, and nothing else. -/
theorem can_attack_position_correct (c : Cell) (p : Position)
    (hw : c.world_properties.width < 2 ^ 31)
    (hh : c.world_properties.height < 2 ^ 31)
    (hcx : 0 ≤ c.position.x)
    (hcxw : c.position.x < (c.world_properties.width : Int))
    (hcy : 0 ≤ c.position.y)
    (hcyh : c.position.y < (c.world_properties.height : Int)) :
    c.can_attack_position p = true ↔ specCanAttack c p := by
  have hw32 := u32ToI32_of_lt _ hw
  have hh32 := u32ToI32_of_lt _ hh
  simp only [Cell.can_attack_position, Cell.is_in_bounds, Bool.and_eq_true,
    decide_eq_true_eq, hw32, hh32, specCanAttack]
  constructor
  · rintro ⟨⟨⟨⟨⟨hx0, hy0⟩, hxw⟩, hyh⟩, hax⟩, hay⟩
    rw [i32abs_small (p.x - c.position.x) (by omega) (by omega)] at hax
    rw [i32abs_small (p.y - c.position.y) (by omega) (by omega)] at hay
    exact ⟨hx0, hxw, hy0, hyh, by omega, by omega⟩
  · rintro ⟨hx0, hxw, hy0, hyh, hax, hay⟩
    refine ⟨⟨⟨⟨⟨hx0, hy0⟩, hxw⟩, hyh⟩, ?_⟩, ?_⟩
    · rw [i32abs_small (p.x - c.position.x) (by omega) (by omega)]; omega
    · rw [i32abs_small (p.y - c.position.y) (by omega) (by omega)]; omega

/-- C6 witness: the amended equivalence at a concrete cell at (0,2) on a
5×5 board against the diagonal neighbour (1,3). -/
theorem can_attack_position_correct_witness :
    cellW.can_attack_position { x := 1, y := 3 } = true ↔
      specCanAttack cellW { x := 1, y := 3 } :=
  can_attack_position_correct cellW { x := 1, y := 3 } (by decide) (by decide)
    (by decide) (by decide) (by decide) (by decide)

/-! ## C7 -/

theorem splitSp_ne_nil (l : List Char) : splitSp l ≠ [] := by
  cases l with
  | nil => simp [splitSp]
  | cons c rest =>
    unfold splitSp
    cases h : splitSp rest with
    | nil => simp
    | cons t ts => by_cases hc : c = ' ' <;> simp [hc]

theorem parseParams_none_of_mem (ts : List (List Char)) (t : List Char)
    (hm : t ∈ ts) (hp : parseU32 t = none) : parseParams ts = none := by
  induction ts with
  | nil => cases hm
  | cons a as ih =>
    unfold parseParams
    rcases List.mem_cons.mp hm with rfl | hm2
    · rw [hp]
    · cases h : parseU32 a with
      | none => rfl
      | some v => rw [ih hm2]

theorem fromStr_eq (s : List Char) :
    Command.fromStr s =
      match parseParams ((splitSp (trim s)).drop 1) with
      | none => Except.error "non int parameter found"
      | some ps => dispatch ((splitSp (trim s)).headD []) ps := by
  unfold Command.fromStr
  rw [if_neg]
  simp [List.length_eq_zero, splitSp_ne_nil]

theorem dispatch_unknown (kw : List Char) (ps : List Nat)
    (h : kw ∉ keywords) : dispatch kw ps = .error "Unknown command" := by
  simp only [keywords, List.mem_cons, not_or] at h
  obtain ⟨h1, h2, h3, h4, h5, h6, h7, _⟩ := h
  unfold dispatch
  rw [if_neg h1, if_neg h2, if_neg h3, if_neg h4, if_neg h5, if_neg h6,
    if_neg h7]

theorem dispatch_wrong_count (kw : List Char) (ps : List Nat)
    (hkw : kw ∈ keywords) (hlen : ps.length ≠ arity kw) :
    dispatch kw ps = .error "Unknown command" := by
  simp only [keywords, List.mem_cons, List.not_mem_nil, or_false] at hkw
  unfold dispatch
  rcases hkw with rfl | rfl | rfl | rfl | rfl | rfl | rfl
  · have e : arity "INITIALIZE".data = 5 := by decide
    rw [e] at hlen
    rw [if_pos rfl, if_neg hlen]
  · have e : arity "SPAWN".data = 6 := by decide
    rw [e] at hlen
    rw [if_neg (by decide), if_pos rfl, if_neg hlen]
  · have e : arity "DIE".data = 1 := by decide
    rw [e] at hlen
    rw [if_neg (by decide), if_neg (by decide), if_pos rfl, if_neg hlen]
  · have e : arity "SET_CELL_PROPERTIES".data = 5 := by decide
    rw [e] at hlen
    rw [if_neg (by decide), if_neg (by decide), if_neg (by decide),
      if_pos rfl, if_neg hlen]
  · have e : arity "CONFLICTING_ACTIONS".data = 2 := by decide
    rw [e] at hlen
    rw [if_neg (by decide), if_neg (by decide), if_neg (by decide),
      if_neg (by decide), if_pos rfl, if_neg hlen]
  · have e : arity "RUN_ROUND".data = 0 := by decide
    rw [e] at hlen
    rw [if_neg (by decide), if_neg (by decide), if_neg (by decide),
      if_neg (by decide), if_neg (by decide), if_pos rfl, if_neg hlen]
  · have e : arity "END_GAME".data = 0 := by decide
    rw [e] at hlen
    rw [if_neg (by decide), if_neg (by decide), if_neg (by decide),
      if_neg (by decide), if_neg (by decide), if_neg (by decide),
      if_pos rfl, if_neg hlen]

/-- C7: decoding fails for the empty line, for any line whose first token is
not a known keyword, for any line with a token after the first that does
not parse as an unsigned 32-bit integer ("non int parameter found"), and
for any known keyword paired with the wrong number of integer arguments —
the last rejected as "Unknown command", not as a malformed-arguments
error; for well-formed lines, i.e. lines tokenizing to a known keyword
with the right number of u32 tokens, decoding succeeds with the
corresponding variant and field values. -/
theorem decode_spec :
    (Command.fromStr [] = .error "Unknown command") ∧
    (∀ s, (splitSp (trim s)).headD [] ∉ keywords →
      (Command.fromStr s).isOk = false) ∧
    (∀ s t, t ∈ (splitSp (trim s)).drop 1 → parseU32 t = none →
      Command.fromStr s = .error "non int parameter found") ∧
    (∀ s kw pts ps, splitSp (trim s) = kw :: pts →
      parseParams pts = some ps → kw ∈ keywords → ps.length ≠ arity kw →
      Command.fromStr s = .error "Unknown command") ∧
    (∀ s pts a b c d e, splitSp (trim s) = "INITIALIZE".data :: pts →
      parseParams pts = some [a, b, c, d, e] →
      Command.fromStr s = .ok (.Initialize a b c d e)) ∧
    (∀ s pts a b c d e f, splitSp (trim s) = "SPAWN".data :: pts →
      parseParams pts = some [a, b, c, d, e, f] →
      Command.fromStr s = .ok (.Spawn a b c d e f)) ∧
    (∀ s pts a, splitSp (trim s) = "DIE".data :: pts →
      parseParams pts = some [a] → Command.fromStr s = .ok (.Die a)) ∧
    (∀ s pts a b c d e, splitSp (trim s) = "SET_CELL_PROPERTIES".data :: pts →
      parseParams pts = some [a, b, c, d, e] →
      Command.fromStr s = .ok (.SetCellProperties a b c d e)) ∧
    (∀ s pts a b, splitSp (trim s) = "CONFLICTING_ACTIONS".data :: pts →
      parseParams pts = some [a, b] →
      Command.fromStr s = .ok (.ConflictingActions a b)) ∧
    (∀ s, splitSp (trim s) = ["RUN_ROUND".data] →
      Command.fromStr s = .ok .RunRound) ∧
    (∀ s, splitSp (trim s) = ["END_GAME".data] →
      Command.fromStr s = .ok .EndGame) := by
  refine ⟨rfl, ?_, ?_, ?_, ?_, ?_, ?_, ?_, ?_, ?_, ?_⟩
  · intro s h
    rw [fromStr_eq]
    cases hp : parseParams ((splitSp (trim s)).drop 1) with
    | none => rfl
    | some ps =>
      show (dispatch ((splitSp (trim s)).headD []) ps).isOk = false
      rw [dispatch_unknown _ ps h]
      rfl
  · intro s t hm hp
    rw [fromStr_eq, parseParams_none_of_mem _ t hm hp]
  · intro s kw pts ps h1 h2 hkw hlen
    rw [fromStr_eq, h1]
    simp only [List.drop_succ_cons, List.drop_zero, List.headD_cons]
    rw [h2]
    exact dispatch_wrong_count kw ps hkw hlen
  · intro s pts a b c d e h1 h2
    rw [fromStr_eq, h1]
    simp only [List.drop_succ_cons, List.drop_zero, List.headD_cons]
    rw [h2]
    rfl
  · intro s pts a b c d e f h1 h2
    rw [fromStr_eq, h1]
    simp only [List.drop_succ_cons, List.drop_zero, List.headD_cons]
    rw [h2]
    rfl
  · intro s pts a h1 h2
    rw [fromStr_eq, h1]
    simp only [List.drop_succ_cons, List.drop_zero, List.headD_cons]
    rw [h2]
    rfl
  · intro s pts a b c d e h1 h2
    rw [fromStr_eq, h1]
    simp only [List.drop_succ_cons, List.drop_zero, List.headD_cons]
    rw [h2]
    rfl
  · intro s pts a b h1 h2
    rw [fromStr_eq, h1]
    simp only [List.drop_succ_cons, List.drop_zero, List.headD_cons]
    rw [h2]
    rfl
  · intro s h1
    rw [fromStr_eq, h1]
    rfl
  · intro s h1
    rw [fromStr_eq, h1]
    rfl

/-- C7 witness: each hypothesis-bearing part of `decode_spec` at a concrete
line — unknown keyword, non-integer argument, wrong argument count, and
one well-formed line per variant. -/
theorem decode_spec_witness :
    (Command.fromStr "BOGUS 1".data).isOk = false ∧
    Command.fromStr "DIE x".data = .error "non int parameter found" ∧
    Command.fromStr "DIE 1 2".data = .error "Unknown command" ∧
    Command.fromStr "INITIALIZE 5 5 1 0 4".data =
      .ok (.Initialize 5 5 1 0 4) ∧
    Command.fromStr "SPAWN 1 0 2 100 1 0".data =
      .ok (.Spawn 1 0 2 100 1 0) ∧
    Command.fromStr "DIE 7".data = .ok (.Die 7) ∧
    Command.fromStr "SET_CELL_PROPERTIES 1 2 3 4 5".data =
      .ok (.SetCellProperties 1 2 3 4 5) ∧
    Command.fromStr "CONFLICTING_ACTIONS 2 3".data =
      .ok (.ConflictingActions 2 3) ∧
    Command.fromStr "RUN_ROUND".data = .ok .RunRound ∧
    Command.fromStr "END_GAME".data = .ok .EndGame :=
  ⟨decode_spec.2.1 _ (by decide),
   decode_spec.2.2.1 _ "x".data (by decide) rfl,
   decode_spec.2.2.2.1 _ "DIE".data ["1".data, "2".data] [1, 2] rfl rfl
     (by decide) (by decide),
   decode_spec.2.2.2.2.1 _ ["5".data, "5".data, "1".data, "0".data, "4".data]
     5 5 1 0 4 rfl rfl,
   decode_spec.2.2.2.2.2.1 _
     ["1".data, "0".data, "2".data, "100".data, "1".data, "0".data]
     1 0 2 100 1 0 rfl rfl,
   decode_spec.2.2.2.2.2.2.1 _ ["7".data] 7 rfl rfl,
   decode_spec.2.2.2.2.2.2.2.1 _
     ["1".data, "2".data, "3".data, "4".data, "5".data] 1 2 3 4 5 rfl rfl,
   decode_spec.2.2.2.2.2.2.2.2.1 _ ["2".data, "3".data] 2 3 rfl rfl,
   decode_spec.2.2.2.2.2.2.2.2.2.1 _ rfl,
   decode_spec.2.2.2.2.2.2.2.2.2.2 _ rfl⟩

/-! ## C10 -/

theorem trim_append_newline (t : List Char) : trim (t ++ ['\n']) = trim t := by
  have hnl : isWs '\n' = true := rfl
  unfold trim rtrim
  rw [List.reverse_append]
  simp [List.dropWhile_cons, hnl]

theorem trim_all_ws (l : List Char) (h : ∀ c ∈ l, isWs c = true) :
    trim l = [] := by
  have h2 : l.reverse.dropWhile isWs = [] := by
    rw [List.dropWhile_eq_nil_iff]
    intro c hc
    exact h c (List.mem_reverse.mp hc)
  unfold trim rtrim
  rw [h2]
  rfl

/-- C10: decoding strips leading and trailing whitespace before tokenizing,
so decoding any command text with its terminating newline attached (as
`read_line` delivers it) gives the same result as decoding the text
alone; and a line consisting only of whitespace is rejected exactly like
the empty line, as an unknown command. -/
theorem decode_trims_whitespace :
    (∀ t, Command.fromStr (t ++ ['\n']) = Command.fromStr t) ∧
    (∀ l, (∀ c ∈ l, isWs c = true) →
      Command.fromStr l = .error "Unknown command") ∧
    Command.fromStr [] = .error "Unknown command" := by
  refine ⟨?_, ?_, rfl⟩
  · intro t
    unfold Command.fromStr
    rw [trim_append_newline]
  · intro l h
    unfold Command.fromStr
    rw [trim_all_ws l h]
    rfl

/-- C10 witness: a concrete line with its newline attached decodes like the
bare line, and a whitespace-only line is rejected as an unknown
command. -/
theorem decode_trims_whitespace_witness :
    Command.fromStr ("DIE 5".data ++ ['\n']) = Command.fromStr "DIE 5".data ∧
      Command.fromStr [' ', '\t'] = .error "Unknown command" :=
  ⟨decode_trims_whitespace.1 "DIE 5".data,
   decode_trims_whitespace.2.1 [' ', '\t'] (by decide)⟩

end Cellwars
